import Mathlib

/-!
Verification of the extraction core of the facebook-group-post-scraper
repository: a shallow embedding of `src/extractors/utils_datetime.py` and
`src/extractors/facebook_group_parser.py`.

Modelling conventions:
- Python strings are lists of characters (`Str`); the regex character
  classes `\d` and `\s`, `str.lower`, `str.strip` and `str.isdigit` are
  modelled over their ASCII meaning.
- The wall clock (`time.time()` / `datetime.now(timezone.utc)`) is an
  integer parameter `now` holding the current epoch seconds.
- The external `dateutil.parser.parse` library call (together with the
  surrounding UTC adjustment and `int(...timestamp())` conversion) is an
  abstract parameter `dateutil : Str → Option Int`; `none` stands for the
  `ValueError`/`OverflowError` branch that the source catches.
- Python exceptions are modelled explicitly: a function whose body can
  raise an exception that its own code does not catch returns
  `Except PyErr ...`, with `Except.error PyErr.overflowError` standing
  for an uncaught `OverflowError` in flight.  The three uncaught raise
  sites of the source are modelled with the exact CPython bounds:
  `timedelta(...)` construction overflows when the normalized total
  exceeds 999999999 days 23:59:59 (86,399,999,999,999 whole seconds);
  aware-`datetime` minus `timedelta` overflows when the result leaves
  `[datetime.min, datetime.max]` (epoch seconds outside
  [-62,135,596,800, 253,402,300,799]); and `int(...)` of an infinite
  float overflows, where a float is infinite when it is a signed
  `inf`/`infinity` literal or when the decimal value reaches the IEEE
  round-to-infinity threshold `2 ^ 1024 - 2 ^ 970`.
- Python `float` values are otherwise modelled exactly as
  `mantissa * 10 ^ exp` integer pairs; the binary rounding of IEEE
  doubles inside the finite range is not modelled (the results coincide
  on the inputs considered here).
-/

/-- Python strings, modelled as lists of characters. -/
abbrev Str := List Char

/-- ASCII model of the regex class `\d` (and of the digits accepted by
Python `int`). -/
def isPyDigit (c : Char) : Bool := 48 ≤ c.toNat && c.toNat ≤ 57

/-- ASCII model of the regex class `\s` and of the whitespace stripped by
`str.strip()` / split by `str.split()`. -/
def isPySpace (c : Char) : Bool :=
  c.toNat == 32 || c.toNat == 9 || c.toNat == 10 ||
  c.toNat == 13 || c.toNat == 11 || c.toNat == 12

/-- `str.lower()` (ASCII model). -/
def pyLower (l : Str) : Str := l.map Char.toLower

/-- `str.strip()` (ASCII whitespace model). -/
def pyStrip (l : Str) : Str :=
  ((l.dropWhile isPySpace).reverse.dropWhile isPySpace).reverse

/-- Value of a string of decimal digits, as computed by Python `int`. -/
def digitsToNat (l : Str) : Nat :=
  l.foldl (fun acc c => acc * 10 + (c.toNat - 48)) 0

/-- The literal `"now"` recognised by the normalizer. -/
def nowLit : Str := ['n', 'o', 'w']

/-- `re.fullmatch(r"\d{9,12}", text)` viewed as a Boolean test. -/
def digitFullmatch (l : Str) : Bool :=
  (decide (9 ≤ l.length) && decide (l.length ≤ 12)) && l.all isPyDigit

/-- The unit alternatives of the relative-time regex, in the order they
appear in the pattern
`(\d+)\s*(s|sec|secs|second|seconds|m|min|mins|minute|minutes|h|hr|hrs|hour|hours|d|day|days|w|week|weeks)`. -/
def relAlternatives : List Str :=
  ["s", "sec", "secs", "second", "seconds",
   "m", "min", "mins", "minute", "minutes",
   "h", "hr", "hrs", "hour", "hours",
   "d", "day", "days",
   "w", "week", "weeks"].map String.toList

/-- One attempted match of the relative-time regex at the start of `l`:
a maximal nonempty run of digits, optional whitespace, then the first
alternative of the unit group that matches.  (Since the one-letter
alternatives come first in the pattern, this mirrors the leftmost
alternative choice.) -/
def relMatchAt (l : Str) : Option (Nat × Str) :=
  if (l.takeWhile isPyDigit).isEmpty then none
  else
    match relAlternatives.find? (fun alt =>
        alt.isPrefixOf ((l.drop (l.takeWhile isPyDigit).length).dropWhile isPySpace)) with
    | some alt => some (digitsToNat (l.takeWhile isPyDigit), alt)
    | none => none

/-- `re.search` for the relative-time pattern: the leftmost position at
which the pattern matches. -/
def relSearch : Str → Option (Nat × Str)
  | [] => none
  | c :: cs =>
    match relMatchAt (c :: cs) with
    | some res => some res
    | none => relSearch cs

/-- Seconds per matched unit group, following the `unit.startswith(...)`
chain of the source (`timedelta` is exact: minutes = 60 s, hours = 3600 s,
days = 86400 s, weeks = 604800 s). -/
def unitSecs (unit : Str) : Option Int :=
  if List.isPrefixOf ['s'] unit then some 1
  else if List.isPrefixOf ['m'] unit then some 60
  else if List.isPrefixOf ['h'] unit then some 3600
  else if List.isPrefixOf ['d'] unit then some 86400
  else if List.isPrefixOf ['w'] unit then some 604800
  else none

/-- An exception that escapes the function raising it.  The only
uncaught exception type arising in the modelled code paths is
`OverflowError`. -/
inductive PyErr : Type
  | overflowError
deriving DecidableEq, Repr

deriving instance DecidableEq for Except

/-- The largest whole number of seconds a `timedelta` can hold:
999999999 days 23:59:59 (`timedelta(seconds=n)` raises `OverflowError`
for larger `n`). -/
def timedeltaMaxSeconds : Int := 86399999999999

/-- Epoch seconds of `datetime.min` (0001-01-01T00:00:00 UTC); an
aware-datetime subtraction whose result falls earlier raises
`OverflowError` (date value out of range). -/
def datetimeMinTs : Int := -62135596800

/-- Epoch seconds of `datetime.max` (9999-12-31T23:59:59 UTC, whole
seconds); an aware-datetime subtraction whose result falls later raises
`OverflowError`. -/
def datetimeMaxTs : Int := 253402300799

/-- Embedding of `parse_facebook_datetime` from
`src/extractors/utils_datetime.py`.  `raw = none` models a `None`
argument, `some []` the empty string (both falsy in `if not raw`).  The
cascade is: the `"now"` keyword, a 9-12 digit epoch token, a relative
time, then the abstract `dateutil` parse applied to the original string;
total parse failure is `Except.ok none`.  The relative-time branch
(line 59 of the source) sits outside every `try`: when the `timedelta`
construction or the `datetime` subtraction leaves the supported range,
the `OverflowError` escapes the function, modelled as `Except.error`. -/
def parse_facebook_datetime (now : Int) (dateutil : Str → Option Int)
    (raw : Option Str) : Except PyErr (Option Int) :=
  match raw with
  | none => Except.ok none
  | some r =>
    if r = [] then Except.ok none
    else
      let text := pyLower (pyStrip r)
      if text = nowLit then Except.ok (some now)
      else if digitFullmatch text then
        let ts : Int := (digitsToNat text : Int)
        if 10000000000 < ts then Except.ok (some (ts / 1000)) else Except.ok (some ts)
      else
        match relSearch text with
        | some (amount, unit) =>
          match unitSecs unit with
          | some u =>
            if timedeltaMaxSeconds < u * (amount : Int) then
              Except.error PyErr.overflowError
            else if now - u * (amount : Int) < datetimeMinTs ∨
                datetimeMaxTs < now - u * (amount : Int) then
              Except.error PyErr.overflowError
            else Except.ok (some (now - u * (amount : Int)))
          | none => Except.ok (dateutil r)
        | none => Except.ok (dateutil r)

/-- The part of `l` strictly before the first occurrence of `pat`
(`l.split(pat)[0]`), or `none` when `pat not in l`. -/
def splitBeforeFirst (pat : Str) : Str → Option Str
  | [] => if pat.isPrefixOf [] then some [] else none
  | c :: cs =>
    if pat.isPrefixOf (c :: cs) then some []
    else (splitBeforeFirst pat cs).map (fun pre => c :: pre)

/-- Python `pat in l` substring containment. -/
def containsSub (pat l : Str) : Bool := (splitBeforeFirst pat l).isSome

/-- Helper for `str.split()`: accumulates the current word (reversed). -/
def splitWsAux : Str → Str → List Str
  | [], acc => if acc = [] then [] else [acc.reverse]
  | c :: cs, acc =>
    if isPySpace c then
      if acc = [] then splitWsAux cs [] else acc.reverse :: splitWsAux cs []
    else splitWsAux cs (c :: acc)

/-- `str.split()` with no argument: split on whitespace runs, dropping
empty words. -/
def pySplitWs (l : Str) : List Str := splitWsAux l []

/-- Python `int(tok)` on a whitespace-free token: an optional sign
followed by decimal digits (the rarely-used underscore grouping of Python
numeric literals is not modelled). -/
def pyInt (tok : Str) : Option Int :=
  match tok with
  | '+' :: ds =>
    if ds ≠ [] ∧ ds.all isPyDigit then some ((digitsToNat ds : Int)) else none
  | '-' :: ds =>
    if ds ≠ [] ∧ ds.all isPyDigit then some (-(digitsToNat ds : Int)) else none
  | ds =>
    if ds ≠ [] ∧ ds.all isPyDigit then some ((digitsToNat ds : Int)) else none

/-- An optional leading sign, returned as a factor together with the rest
of the token. -/
def readSign : Str → Int × Str
  | '+' :: r => (1, r)
  | '-' :: r => (-1, r)
  | l => (1, l)

/-- The exponent suffix of a Python float token (the token reaching this
point is already lower-cased): empty, or `e` followed by a signed run of
digits. -/
def readExp : Str → Option Int
  | [] => some 0
  | c :: r =>
    if c == 'e' then
      let sr := readSign r
      if sr.2 ≠ [] ∧ sr.2.all isPyDigit then
        some (sr.1 * (digitsToNat sr.2 : Int))
      else none
    else none

/-- The value of a Python float: an exact finite decimal
`num * 10 ^ exp10`, an infinity, or a nan. -/
inductive PyFloat : Type
  | finite (num : Int) (exp10 : Int)
  | inf (neg : Bool)
  | nan
deriving DecidableEq, Repr

/-- The smallest magnitude at which a real value rounds to IEEE double
infinity: the number `2 ^ 1024 - 2 ^ 970`, the midpoint between the
largest double `2 ^ 1024 - 2 ^ 971` and `2 ^ 1024` (the tie rounds to
even, that is to infinity).  Written as a numeral so that concrete
inputs evaluate by literal arithmetic. -/
def floatOverflowThreshold : Nat := 179769313486231580793728971405303415079934132710037826936173778980444968292764750946649017977587207096330286416692887910946555547851940402630657488671505820681908902000708383676273854845817711531764475730270069855571366959622842914819860834936475292719074168444365510704342711559699508093042880177904174497792

/-- Whether `|num * 10 ^ exp10| ≥ bound` (exact integer comparison). -/
def floatMagGE (num : Int) (exp10 : Int) (bound : Nat) : Bool :=
  if 0 ≤ exp10 then decide (bound ≤ num.natAbs * 10 ^ exp10.toNat)
  else decide (bound * 10 ^ (-exp10).toNat ≤ num.natAbs)

/-- Python `float(tok)` on a lower-cased, whitespace-free token: a signed
`inf`/`infinity` or `nan` literal, or an exact decimal value — returned
as an infinity when it reaches the IEEE round-to-infinity threshold
(CPython string conversion overflows silently to `inf`).  Underscore
grouping is not modelled. -/
def pyFloat (tok : Str) : Option PyFloat :=
  let s := readSign tok
  if s.2 = "inf".toList ∨ s.2 = "infinity".toList then some (PyFloat.inf (s.1 < 0))
  else if s.2 = "nan".toList then some PyFloat.nan
  else
    let ip := s.2.takeWhile isPyDigit
    let rest2 := s.2.drop ip.length
    match rest2 with
    | '.' :: rest3 =>
      let fp := rest3.takeWhile isPyDigit
      let rest4 := rest3.drop fp.length
      if ip = [] ∧ fp = [] then none
      else
        match readExp rest4 with
        | some e =>
          if floatMagGE (s.1 * (digitsToNat (ip ++ fp) : Int)) (e - (fp.length : Int))
              floatOverflowThreshold then
            some (PyFloat.inf (s.1 < 0))
          else some (PyFloat.finite (s.1 * (digitsToNat (ip ++ fp) : Int)) (e - (fp.length : Int)))
        | none => none
    | _ =>
      if ip = [] then none
      else
        match readExp rest2 with
        | some e =>
          if floatMagGE (s.1 * (digitsToNat ip : Int)) e floatOverflowThreshold then
            some (PyFloat.inf (s.1 < 0))
          else some (PyFloat.finite (s.1 * (digitsToNat ip : Int)) e)
        | none => none

/-- Truncation toward zero of `mantissa * 10 ^ exponent`, as performed by
Python `int(...)` on a float value. -/
def floatTruncToInt (f : Int × Int) : Int :=
  if 0 ≤ f.2 then f.1 * (10 : Int) ^ f.2.toNat
  else Int.sign f.1 * ((f.1.natAbs : Int) / (10 : Int) ^ (-f.2).toNat)

/-- The label literals of `_extract_engagement`. -/
def reactionsLit : Str := "reactions".toList

/-- See `reactionsLit`. -/
def commentsLit : Str := "comments".toList

/-- See `reactionsLit`. -/
def sharesLit : Str := "shares".toList

/-- Embedding of the inner `parse_count` closure of
`FacebookGroupParser._extract_engagement`: lower-case the container text,
take the whitespace-separated token immediately before the first
occurrence of `label`, and parse it as an int — via `float` scaled by
1000 when the token contains a `k`.  `Except.ok none` models the
`ValueError` that the closure itself catches (no numeric token, or
`int(nan)`).  `int(...)` of an infinite float (an `inf` literal such as
the de-k-ed token `"infk"`, an overflowing decimal, or a finite float
pushed past the double range by the `* 1000`) raises `OverflowError`,
which `except ValueError` does not catch: it escapes, modelled as
`Except.error`. -/
def parse_count (text : Str) (label : Str) : Except PyErr (Option Int) :=
  let lowered := pyLower text
  match splitBeforeFirst label lowered with
  | none => Except.ok none
  | some before =>
    match (pySplitWs before).getLast? with
    | none => Except.ok none
    | some tok =>
      if tok.contains 'k' then
        match pyFloat (tok.filter (fun c => !(c == 'k'))) with
        | none => Except.ok none
        | some PyFloat.nan => Except.ok none
        | some (PyFloat.inf _) => Except.error PyErr.overflowError
        | some (PyFloat.finite m e) =>
          if floatMagGE (m * 1000) e floatOverflowThreshold then
            Except.error PyErr.overflowError
          else Except.ok (some (floatTruncToInt (m * 1000, e)))
      else Except.ok (pyInt tok)

/-- Embedding of `FacebookGroupParser._extract_engagement`: the triple
`(reactionCount, commentCount, shareCount)` extracted from the
full visible text of the container, each metric defaulting to 0 when its
`parse_count` returns no value.  The three `parse_count` calls run in
source order; an `OverflowError` escaping one of them aborts the whole
extraction (all three metrics are lost), modelled by propagating the
error. -/
def extract_engagement (text : Str) : Except PyErr (Int × Int × Int) :=
  match parse_count text reactionsLit with
  | Except.error e => Except.error e
  | Except.ok rc =>
    match parse_count text commentsLit with
    | Except.error e => Except.error e
    | Except.ok cc =>
      match parse_count text sharesLit with
      | Except.error e => Except.error e
      | Except.ok sc => Except.ok (rc.getD 0, cc.getD 0, sc.getD 0)

/-- An attachment dict as built by `_extract_attachments`: the `image`
variant carries `url` (the `src` attribute) and `alt`, the `link` variant
carries the normalized `url` and the anchor text. -/
inductive Att : Type
  | image (url : Str) (alt : Str)
  | link (url : Str) (txt : Str)
deriving DecidableEq, Repr

/-- The string stored under the `"type"` key of an attachment dict. -/
def attType : Att → Str
  | Att.image _ _ => "image".toList
  | Att.link _ _ => "link".toList

/-- The string stored under the `"url"` key of an attachment dict. -/
def attUrl : Att → Str
  | Att.image u _ => u
  | Att.link u _ => u

/-- The dedup key `(att.get("type"), att.get("url"))`. -/
def dedupKey (a : Att) : Str × Str := (attType a, attUrl a)

/-- Whether the attachment is an `image` dict. -/
def attIsImage : Att → Bool
  | Att.image _ _ => true
  | Att.link _ _ => false

/-- Whether the attachment is a `link` dict. -/
def attIsLink : Att → Bool
  | Att.image _ _ => false
  | Att.link _ _ => true

/-- The `seen`-set loop at the end of `_extract_attachments`: keep an
attachment only when its `(type, url)` key has not been seen yet. -/
def dedupAux (seen : List (Str × Str)) : List Att → List Att
  | [] => []
  | a :: rest =>
    if dedupKey a ∈ seen then dedupAux seen rest
    else a :: dedupAux (dedupKey a :: seen) rest

/-- Attachment deduplication by `(type, url)`, first occurrence wins. -/
def dedupAttachments (l : List Att) : List Att := dedupAux [] l

/-- Embedding of `FacebookGroupParser._normalize_url`: absolute URLs pass
through, root-relative paths are prefixed with the site origin, other
fragments are joined to the origin after stripping leading `.` and `/`
characters. -/
def normalize_url (href : Str) : Str :=
  if List.isPrefixOf ("http://".toList) href then href
  else if List.isPrefixOf ("https://".toList) href then href
  else if List.isPrefixOf ['/'] href then "https://www.facebook.com".toList ++ href
  else "https://www.facebook.com/".toList ++ href.dropWhile (fun c => c == '.' || c == '/')

/-- The elements of a post container that `_extract_attachments`
inspects, in document order: `img` elements (with an optional `src`
attribute and an `alt` text) and `a` elements (whose `href` attribute may
be absent), interleaved with irrelevant markup. -/
inductive ANode : Type
  | img (src : Option Str) (alt : Str)
  | anchor (href : Option Str) (txt : Str)
  | other
deriving DecidableEq

/-- The image attachment produced by one node of the first loop of
`_extract_attachments`, if any: an `img` whose `src` is present and
non-empty. -/
def imgAttOf : ANode → Option Att
  | ANode.img (some src) alt => if src = [] then none else some (Att.image src alt)
  | _ => none

/-- The link attachment produced by one node of the second loop of
`_extract_attachments`, if any: an `a` carrying an `href` that is not an
internal facebook.com non-group link, does not mention `comment`, and is
non-empty. -/
def linkAttOf : ANode → Option Att
  | ANode.anchor (some href) txt =>
    if containsSub ("facebook.com".toList) href ∧
        ¬ containsSub ("groups".toList) href = true then none
    else if containsSub ("comment".toList) (pyLower href) then none
    else if href = [] then none
    else some (Att.link (normalize_url href) txt)
  | _ => none

/-- The first loop of `_extract_attachments` (`div.find_all("img")`),
in document order. -/
def imageAtts (nodes : List ANode) : List Att := nodes.filterMap imgAttOf

/-- The second loop of `_extract_attachments`
(`div.find_all("a", href=True)`), in document order. -/
def linkAtts (nodes : List ANode) : List Att := nodes.filterMap linkAttOf

/-- Embedding of `FacebookGroupParser._extract_attachments`: all image
attachments are collected first, then all link attachments, and the
concatenation is deduplicated by `(type, url)`. -/
def extract_attachments (nodes : List ANode) : List Att :=
  dedupAttachments (imageAtts nodes ++ linkAtts nodes)

/-- Embedding of the per-container loop of
`FacebookGroupParser.parse_posts_from_html`: `parseSingle` models
`_parse_single_post` (plus `to_dict`), whose raised exceptions are
`Except.error` values; the `try`/`except` of the loop appends the posts
of the successful containers and skips the failing ones. -/
def parse_posts_from_html {Container Post Err : Type}
    (parseSingle : Container → Except Err Post) : List Container → List Post
  | [] => []
  | c :: rest =>
    match parseSingle c with
    | Except.ok p => p :: parse_posts_from_html parseSingle rest
    | Except.error _ => parse_posts_from_html parseSingle rest

/-- One element of `div.find_all(["abbr", "span", "a"])` as inspected by
`_extract_created_at`: its `data-utime`, `data-tooltip-content`,
`datetime` and `title` attributes (absent attributes are `none`). -/
structure TsEl : Type where
  dataUtime : Option Str
  tooltip : Option Str
  datetimeAttr : Option Str
  title : Option Str
deriving DecidableEq

/-- Python `a or b` on optional strings: `b` when `a` is falsy (`None` or
empty), else `a`. -/
def pyOrStr (a b : Option Str) : Option Str :=
  match a with
  | some s => if s = [] then b else some s
  | none => b

/-- The raw candidate values `(utime, datetime_attr, title)` tried for
one element, in order, where `utime = data-utime or data-tooltip-content`. -/
def tsCandidates (el : TsEl) : List (Option Str) :=
  [pyOrStr el.dataUtime el.tooltip, el.datetimeAttr, el.title]

/-- One iteration of the inner `for raw in (...)` loop: skip falsy raw
values, parse the rest, and accept only truthy (non-`None`, non-zero)
timestamps.  An `OverflowError` escaping the Normalizer propagates
(nothing in `_extract_created_at` catches it). -/
def tsFromRaw (now : Int) (dateutil : Str → Option Int) (raw : Option Str) :
    Except PyErr (Option Int) :=
  match raw with
  | none => Except.ok none
  | some s =>
    if s = [] then Except.ok none
    else
      match parse_facebook_datetime now dateutil (some s) with
      | Except.error e => Except.error e
      | Except.ok (some t) => Except.ok (if t = 0 then none else some t)
      | Except.ok none => Except.ok none

/-- First truthy timestamp among the raw candidates, in order, stopping
at the first escaping exception. -/
def firstTruthyTs (now : Int) (dateutil : Str → Option Int) :
    List (Option Str) → Except PyErr (Option Int)
  | [] => Except.ok none
  | o :: rest =>
    match tsFromRaw now dateutil o with
    | Except.error e => Except.error e
    | Except.ok (some t) => Except.ok (some t)
    | Except.ok none => firstTruthyTs now dateutil rest

/-- The timestamp resolved from the attributes of one element, if any. -/
def elTs (now : Int) (dateutil : Str → Option Int) (el : TsEl) :
    Except PyErr (Option Int) :=
  firstTruthyTs now dateutil (tsCandidates el)

/-- The outer `for el in ts_candidates` loop of `_extract_created_at`. -/
def firstElTs (now : Int) (dateutil : Str → Option Int) :
    List TsEl → Except PyErr (Option Int)
  | [] => Except.ok none
  | el :: rest =>
    match elTs now dateutil el with
    | Except.error e => Except.error e
    | Except.ok (some t) => Except.ok (some t)
    | Except.ok none => firstElTs now dateutil rest

/-- The last resort of `_extract_created_at`:
`parse_facebook_datetime("now") or 0`. -/
def lastResortTs (now : Int) (dateutil : Str → Option Int) : Except PyErr Int :=
  match parse_facebook_datetime now dateutil (some nowLit) with
  | Except.error e => Except.error e
  | Except.ok (some t) => Except.ok (if t = 0 then 0 else t)
  | Except.ok none => Except.ok 0

/-- Embedding of `FacebookGroupParser._extract_created_at`: try the
timestamp-bearing attributes of every descendant element, then the
full visible text of the container, then the `"now"` sentinel; an
`OverflowError` raised by the Normalizer on the way escapes the
function. -/
def extract_created_at (now : Int) (dateutil : Str → Option Int)
    (els : List TsEl) (text : Str) : Except PyErr Int :=
  match firstElTs now dateutil els with
  | Except.error e => Except.error e
  | Except.ok (some t) => Except.ok t
  | Except.ok none =>
    match parse_facebook_datetime now dateutil (some text) with
    | Except.error e => Except.error e
    | Except.ok (some t) =>
      if t = 0 then lastResortTs now dateutil else Except.ok t
    | Except.ok none => lastResortTs now dateutil

theorem isPySpace_eq_false_of_isPyDigit {c : Char} (h : isPyDigit c = true) :
    isPySpace c = false := by
  unfold isPyDigit at h
  unfold isPySpace
  simp only [Bool.and_eq_true, decide_eq_true_eq] at h
  simp only [Bool.or_eq_false_iff, beq_eq_false_iff_ne, ne_eq]
  omega

theorem toLower_eq_self_of_isPyDigit {c : Char} (h : isPyDigit c = true) :
    c.toLower = c := by
  unfold isPyDigit at h
  simp only [Bool.and_eq_true, decide_eq_true_eq] at h
  unfold Char.toLower
  rw [if_neg (by omega)]

theorem takeWhile_eq_self_of_all {p : Char → Bool} : ∀ {l : Str},
    l.all p = true → l.takeWhile p = l := by
  intro l
  induction l with
  | nil => intro _; rfl
  | cons c cs ih =>
    intro h
    simp only [List.all_cons, Bool.and_eq_true] at h
    simp [List.takeWhile_cons, h.1, ih h.2]

theorem dropWhile_space_eq_self_of_digits {l : Str} (h : l.all isPyDigit = true) :
    l.dropWhile isPySpace = l := by
  cases l with
  | nil => rfl
  | cons c cs =>
    simp only [List.all_cons, Bool.and_eq_true] at h
    simp [List.dropWhile_cons, isPySpace_eq_false_of_isPyDigit h.1]

theorem pyStrip_eq_self_of_digits {l : Str} (h : l.all isPyDigit = true) :
    pyStrip l = l := by
  have hrev : l.reverse.all isPyDigit = true := by
    rw [List.all_eq_true] at h ⊢
    intro x hx
    exact h x (List.mem_reverse.mp hx)
  unfold pyStrip
  rw [dropWhile_space_eq_self_of_digits h,
      dropWhile_space_eq_self_of_digits hrev, List.reverse_reverse]

theorem pyLower_eq_self_of_digits : ∀ {l : Str},
    l.all isPyDigit = true → pyLower l = l := by
  intro l
  induction l with
  | nil => intro _; rfl
  | cons c cs ih =>
    intro h
    simp only [List.all_cons, Bool.and_eq_true] at h
    unfold pyLower at ih ⊢
    simp [toLower_eq_self_of_isPyDigit h.1, ih h.2]

theorem digits_ne_nowLit {l : Str} (h : l.all isPyDigit = true) : l ≠ nowLit := by
  intro heq
  rw [heq] at h
  exact absurd h (by decide)

theorem relMatchAt_eq_none_of_digits {l : Str} (h : l.all isPyDigit = true) :
    relMatchAt l = none := by
  cases l with
  | nil => rfl
  | cons c cs =>
    unfold relMatchAt
    rw [takeWhile_eq_self_of_all h, List.drop_length]
    simp only [List.dropWhile_nil, List.isEmpty_cons, Bool.false_eq_true, if_false]
    rw [show List.find? (fun alt => List.isPrefixOf alt []) relAlternatives = none from by decide]

theorem relSearch_eq_none_of_digits : ∀ {l : Str},
    l.all isPyDigit = true → relSearch l = none := by
  intro l
  induction l with
  | nil => intro _; rfl
  | cons c cs ih =>
    intro h
    have h2 := h
    simp only [List.all_cons, Bool.and_eq_true] at h2
    unfold relSearch
    rw [relMatchAt_eq_none_of_digits h]
    exact ih h2.2

theorem relMatchAt_unit_mem {l : Str} {n : Nat} {u : Str}
    (h : relMatchAt l = some (n, u)) : u ∈ relAlternatives := by
  unfold relMatchAt at h
  split at h
  · exact absurd h (by simp)
  · split at h
    next alt hfind =>
      simp only [Option.some_inj, Prod.mk.injEq] at h
      rw [← h.2]
      exact List.mem_of_find?_eq_some hfind
    next => exact absurd h (by simp)

theorem relSearch_unit_mem : ∀ {l : Str} {n : Nat} {u : Str},
    relSearch l = some (n, u) → u ∈ relAlternatives := by
  intro l
  induction l with
  | nil => intro n u h; cases h
  | cons c cs ih =>
    intro n u h
    unfold relSearch at h
    cases hm : relMatchAt (c :: cs) with
    | some res =>
      rw [hm] at h
      simp only [Option.some_inj] at h
      rw [h] at hm
      exact relMatchAt_unit_mem hm
    | none =>
      rw [hm] at h
      exact ih h

theorem unitSecs_isSome_of_mem : ∀ u ∈ relAlternatives, (unitSecs u).isSome = true := by
  decide

/-- The input on which `parse_facebook_datetime` raises: twelve nines of
seconds, about 31,688 years. -/
def overflowRelStr : Str := "999999999999s".toList

/-- C1 (code bug): the claim — and the docstring of the source, which
promises `None` on failure — is contradicted by the code.  On the input
`"999999999999s"` the relative branch evaluates
`datetime.now(timezone.utc) - timedelta(seconds=999999999999)` outside
any `try` (utils_datetime.py line 59); for every wall-clock time before
the year 31690 (epoch `now < 937,864,403,199`) the subtraction leaves
the supported datetime range and the `OverflowError` escapes the
function instead of the unresolved sentinel. -/
theorem parse_facebook_datetime_overflow_raises (now : Int)
    (dateutil : Str → Option Int) (hnow : now < 937864403199) :
    parse_facebook_datetime now dateutil (some overflowRelStr) =
      Except.error PyErr.overflowError := by
  simp only [parse_facebook_datetime]
  rw [if_neg (by decide : ¬(overflowRelStr = []))]
  rw [show pyLower (pyStrip overflowRelStr) = overflowRelStr from by decide]
  rw [if_neg (by decide : ¬(overflowRelStr = nowLit))]
  rw [show digitFullmatch overflowRelStr = false from by decide]
  simp only [Bool.false_eq_true, if_false]
  rw [show relSearch overflowRelStr = some (999999999999, ['s']) from by decide]
  show (match unitSecs ['s'] with
        | some u =>
          if timedeltaMaxSeconds < u * ((999999999999 : Nat) : Int) then
            Except.error PyErr.overflowError
          else if now - u * ((999999999999 : Nat) : Int) < datetimeMinTs ∨
              datetimeMaxTs < now - u * ((999999999999 : Nat) : Int) then
            Except.error PyErr.overflowError
          else Except.ok (some (now - u * ((999999999999 : Nat) : Int)))
        | none => Except.ok (dateutil overflowRelStr)) =
      Except.error PyErr.overflowError
  rw [show unitSecs ['s'] = some 1 from by decide]
  show (if timedeltaMaxSeconds < 1 * ((999999999999 : Nat) : Int) then
          Except.error PyErr.overflowError
        else if now - 1 * ((999999999999 : Nat) : Int) < datetimeMinTs ∨
            datetimeMaxTs < now - 1 * ((999999999999 : Nat) : Int) then
          Except.error PyErr.overflowError
        else Except.ok (some (now - 1 * ((999999999999 : Nat) : Int)))) =
      Except.error PyErr.overflowError
  have hc : ((999999999999 : Nat) : Int) = 999999999999 := by decide
  rw [hc, if_neg (by unfold timedeltaMaxSeconds; omega),
      if_pos (Or.inl (by unfold datetimeMinTs; omega))]

/-- Witness for C1: at the wall-clock time 0 the failing input indeed
produces the escaping `OverflowError`. -/
theorem parse_facebook_datetime_overflow_raises_witness :
    parse_facebook_datetime 0 (fun _ => none) (some overflowRelStr) =
      Except.error PyErr.overflowError :=
  parse_facebook_datetime_overflow_raises 0 (fun _ => none) (by decide)

/-- C4: for a string of 9 to 12 decimal digits, `parse_facebook_datetime`
returns its integer value when that value is at most 10,000,000,000, and
otherwise that value integer-divided by 1000 (and this branch raises
nothing). -/
theorem parse_facebook_datetime_epoch_digits (now : Int) (dateutil : Str → Option Int)
    (r : Str) (h1 : r.all isPyDigit = true) (h2 : 9 ≤ r.length) (h3 : r.length ≤ 12) :
    ((digitsToNat r : Int) ≤ 10000000000 →
      parse_facebook_datetime now dateutil (some r) =
        Except.ok (some ((digitsToNat r : Int)))) ∧
    (10000000000 < (digitsToNat r : Int) →
      parse_facebook_datetime now dateutil (some r) =
        Except.ok (some ((digitsToNat r : Int) / 1000))) := by
  have hr0 : r ≠ [] := by
    intro h
    rw [h] at h2
    simp at h2
  have htext : pyLower (pyStrip r) = r := by
    rw [pyStrip_eq_self_of_digits h1, pyLower_eq_self_of_digits h1]
  have hfm : digitFullmatch r = true := by
    unfold digitFullmatch
    rw [h1, decide_eq_true h2, decide_eq_true h3]
    rfl
  constructor
  · intro hle
    simp only [parse_facebook_datetime]
    rw [if_neg hr0, htext, if_neg (digits_ne_nowLit h1), hfm]
    simp only [if_true]
    rw [if_neg (by omega)]
  · intro hlt
    simp only [parse_facebook_datetime]
    rw [if_neg hr0, htext, if_neg (digits_ne_nowLit h1), hfm]
    simp only [if_true]
    rw [if_pos hlt]

/-- A relative-time token whose seconds total exceeds what a `timedelta`
can hold, used as the C3 counterexample. -/
def hugeRelStr : Str := "99999999999999s".toList

/-- C3 counterexample: the claim quantifies over every `<n><unit>` token
with `n` a positive integer, but at `"99999999999999s"` the source
raises an uncaught `OverflowError` (the `timedelta` construction itself
overflows: 99,999,999,999,999 s is more than 999,999,999 days) instead
of returning a value near `now - n` units. -/
theorem parse_facebook_datetime_relative_overflow :
    parse_facebook_datetime 1000 (fun _ => none) (some hugeRelStr) =
      Except.error PyErr.overflowError := by
  decide

/-- C3 (amended): when the relative-time regex finds a token `<n><unit>`
(n a positive integer, unit one of the supported spellings) in the
lower-cased stripped input, and the duration fits in a `timedelta`
(`n` times the unit length at most 86,399,999,999,999 s) and `now` minus
that duration stays within the supported datetime range, then
`parse_facebook_datetime` returns exactly `now` minus `n` times the
length of the unit in seconds (with `now` the current epoch time in UTC,
so the result is within the claimed one-second tolerance); outside those
bounds the source raises an uncaught `OverflowError` instead. -/
theorem parse_facebook_datetime_relative (now : Int) (dateutil : Str → Option Int)
    (r : Str) (n : Nat) (unit : Str) (u : Int) (hpos : 1 ≤ n)
    (hrel : relSearch (pyLower (pyStrip r)) = some (n, unit))
    (hu : unitSecs unit = some u)
    (htd : u * (n : Int) ≤ timedeltaMaxSeconds)
    (hmin : datetimeMinTs ≤ now - u * (n : Int))
    (hmax : now - u * (n : Int) ≤ datetimeMaxTs) :
    parse_facebook_datetime now dateutil (some r) =
      Except.ok (some (now - u * (n : Int))) := by
  have hr0 : r ≠ [] := by
    intro h
    rw [h] at hrel
    cases hrel
  have hnow : pyLower (pyStrip r) ≠ nowLit := by
    intro heq
    rw [heq] at hrel
    rw [show relSearch nowLit = none from by decide] at hrel
    cases hrel
  have hfm : digitFullmatch (pyLower (pyStrip r)) = false := by
    cases hb : digitFullmatch (pyLower (pyStrip r)) with
    | false => rfl
    | true =>
      unfold digitFullmatch at hb
      simp only [Bool.and_eq_true] at hb
      rw [relSearch_eq_none_of_digits hb.2] at hrel
      cases hrel
  simp only [parse_facebook_datetime]
  rw [if_neg hr0, if_neg hnow, hfm]
  simp only [Bool.false_eq_true, if_false]
  rw [hrel]
  show (match unitSecs unit with
        | some u =>
          if timedeltaMaxSeconds < u * (n : Int) then
            Except.error PyErr.overflowError
          else if now - u * (n : Int) < datetimeMinTs ∨
              datetimeMaxTs < now - u * (n : Int) then
            Except.error PyErr.overflowError
          else Except.ok (some (now - u * (n : Int)))
        | none => Except.ok (dateutil r)) =
      Except.ok (some (now - u * (n : Int)))
  rw [hu]
  show (if timedeltaMaxSeconds < u * (n : Int) then
          Except.error PyErr.overflowError
        else if now - u * (n : Int) < datetimeMinTs ∨
            datetimeMaxTs < now - u * (n : Int) then
          Except.error PyErr.overflowError
        else Except.ok (some (now - u * (n : Int)))) =
      Except.ok (some (now - u * (n : Int)))
  rw [if_neg (not_lt.mpr htd),
      if_neg (by simp only [not_or, not_lt]; exact ⟨hmin, hmax⟩)]

/-- The engagement text of the worked example in the spec. -/
def engSampleText : Str := "1.2k reactions 340 comments 5 shares".toList

/-- A container text whose token before `reactions` carries a minus sign. -/
def negEngText : Str := "-5 reactions".toList

/-- A container text mentioning none of the three labels. -/
def noLabelText : Str := "hello world".toList

/-- A container text whose token before `reactions` de-k-s to the float
literal `inf`, triggering the uncaught `OverflowError` of the k-branch
even though a perfectly recoverable comment count follows. -/
def infEngText : Str := "infk reactions 340 comments".toList

/-- C7: on the container text `"1.2k reactions 340 comments 5 shares"`,
engagement extraction returns (raising nothing) `reactionCount = 1200`
(the trailing `k` multiplies the parsed value by 1000, truncating the
fraction), `commentCount = 340` and `shareCount = 5`. -/
theorem extract_engagement_sample :
    extract_engagement engSampleText = Except.ok (1200, 340, 5) := by
  decide

/-- C5 counterexample: on the container text `"-5 reactions"` the
extracted reactionCount is `-5`, which is negative — refuting the
non-negativity part of the claim — and on `"infk reactions 340
comments"` the whole extraction raises an uncaught `OverflowError`
(`int(float("inf") * 1000)` is not caught by `except ValueError`), so
the recoverable comment count 340 is lost too — refuting the
default-to-0 and independence parts. -/
theorem extract_engagement_counterexamples :
    extract_engagement negEngText = Except.ok (-5, 0, 0) ∧
    ¬ (0 ≤ (-5 : Int)) ∧
    extract_engagement infEngText = Except.error PyErr.overflowError := by
  decide

/-- C5 (amended): when no metric token triggers the uncaught overflow of
the k-branch — that is, when each of the three `parse_count` calls
returns — each engagement metric equals the value parsed for its own
label alone (so the metrics are resolved independently and a recoverable
parse failure in one leaves the others unaffected), with 0 as the
default whenever the own parse of the metric yields nothing; the metrics
are integers but not guaranteed non-negative, and when a token does
trigger the overflow the whole extraction raises and all three metrics
are lost. -/
theorem extract_engagement_independent (t : Str) :
    (∀ orc occ osc : Option Int,
      parse_count t reactionsLit = Except.ok orc →
      parse_count t commentsLit = Except.ok occ →
      parse_count t sharesLit = Except.ok osc →
      extract_engagement t = Except.ok (orc.getD 0, occ.getD 0, osc.getD 0)) ∧
    (∀ e : PyErr, parse_count t reactionsLit = Except.error e →
      extract_engagement t = Except.error e) := by
  constructor
  · intro orc occ osc hr hc hs
    unfold extract_engagement
    rw [hr, hc, hs]
  · intro e hr
    unfold extract_engagement
    rw [hr]

/-- Witness for the amended C5 theorem at a concrete container text with
no labels: all hypotheses are discharged by computation and all three
metrics default to 0. -/
theorem extract_engagement_independent_witness :
    extract_engagement noLabelText = Except.ok (0, 0, 0) :=
  (extract_engagement_independent noLabelText).1 none none none
    (by decide) (by decide) (by decide)

theorem dedupAux_sublist : ∀ (l : List Att) (seen : List (Str × Str)),
    (dedupAux seen l).Sublist l := by
  intro l
  induction l with
  | nil => intro seen; exact List.Sublist.refl []
  | cons a rest ih =>
    intro seen
    unfold dedupAux
    by_cases hm : dedupKey a ∈ seen
    · rw [if_pos hm]
      exact (ih seen).cons a
    · rw [if_neg hm]
      exact (ih (dedupKey a :: seen)).cons₂ a

theorem mem_dedupAux_not_seen : ∀ {l : List Att} {seen : List (Str × Str)} {a : Att},
    a ∈ dedupAux seen l → dedupKey a ∉ seen := by
  intro l
  induction l with
  | nil => intro seen a h; cases h
  | cons b rest ih =>
    intro seen a h
    unfold dedupAux at h
    by_cases hm : dedupKey b ∈ seen
    · rw [if_pos hm] at h
      exact ih h
    · rw [if_neg hm] at h
      rcases List.mem_cons.mp h with heq | hmem
      · rw [heq]; exact hm
      · have := ih hmem
        intro hcon
        exact this (List.mem_cons_of_mem _ hcon)

theorem dedupAux_pairwise : ∀ (l : List Att) (seen : List (Str × Str)),
    (dedupAux seen l).Pairwise (fun a b => dedupKey a ≠ dedupKey b) := by
  intro l
  induction l with
  | nil => intro seen; exact List.Pairwise.nil
  | cons a rest ih =>
    intro seen
    unfold dedupAux
    by_cases hm : dedupKey a ∈ seen
    · rw [if_pos hm]; exact ih seen
    · rw [if_neg hm]
      refine List.Pairwise.cons ?_ (ih (dedupKey a :: seen))
      intro b hb
      have := mem_dedupAux_not_seen hb
      intro hcon
      exact this (by rw [← hcon]; exact List.mem_cons_self _ _)

theorem dedupAux_eq_self : ∀ {l : List Att} {seen : List (Str × Str)},
    (∀ a ∈ l, dedupKey a ∉ seen) →
    l.Pairwise (fun a b => dedupKey a ≠ dedupKey b) →
    dedupAux seen l = l := by
  intro l
  induction l with
  | nil => intro seen _ _; rfl
  | cons a rest ih =>
    intro seen hseen hpw
    rcases List.pairwise_cons.mp hpw with ⟨hhead, htail⟩
    unfold dedupAux
    rw [if_neg (hseen a (List.mem_cons_self _ _))]
    congr 1
    refine ih ?_ htail
    intro b hb
    rw [List.mem_cons]
    push_neg
    exact ⟨fun hcon => (hhead b hb) hcon.symm, hseen b (List.mem_cons_of_mem _ hb)⟩

theorem dedupAux_find? : ∀ {l : List Att} {seen : List (Str × Str)} {a : Att},
    a ∈ dedupAux seen l →
    l.find? (fun b => decide (dedupKey b = dedupKey a)) = some a := by
  intro l
  induction l with
  | nil => intro seen a h; cases h
  | cons c rest ih =>
    intro seen a h
    unfold dedupAux at h
    by_cases hm : dedupKey c ∈ seen
    · rw [if_pos hm] at h
      have hne : dedupKey c ≠ dedupKey a := by
        intro hcon
        exact (mem_dedupAux_not_seen h) (hcon ▸ hm)
      rw [List.find?_cons_of_neg _ (by simpa using hne)]
      exact ih h
    · rw [if_neg hm] at h
      rcases List.mem_cons.mp h with heq | hmem
      · rw [heq]
        rw [List.find?_cons_of_pos _ (by simp)]
      · have hnotin := mem_dedupAux_not_seen hmem
        have hne : dedupKey c ≠ dedupKey a := by
          intro hcon
          exact hnotin (by rw [← hcon]; exact List.mem_cons_self _ _)
        rw [List.find?_cons_of_neg _ (by simpa using hne)]
        exact ih hmem

theorem dedupAux_covers : ∀ {l : List Att} {seen : List (Str × Str)} {a : Att},
    a ∈ l → dedupKey a ∈ seen ∨ ∃ b ∈ dedupAux seen l, dedupKey b = dedupKey a := by
  intro l
  induction l with
  | nil => intro seen a h; cases h
  | cons c rest ih =>
    intro seen a h
    unfold dedupAux
    by_cases hm : dedupKey c ∈ seen
    · rw [if_pos hm]
      rcases List.mem_cons.mp h with heq | hmem
      · exact Or.inl (heq ▸ hm)
      · exact ih hmem
    · rw [if_neg hm]
      rcases List.mem_cons.mp h with heq | hmem
      · exact Or.inr ⟨c, List.mem_cons_self _ _, by rw [heq]⟩
      · rcases @ih (dedupKey c :: seen) a hmem with hs | ⟨b, hb, hkb⟩
        · rcases List.mem_cons.mp hs with hk | hs2
          · exact Or.inr ⟨c, List.mem_cons_self _ _, hk.symm⟩
          · exact Or.inl hs2
        · exact Or.inr ⟨b, List.mem_cons_of_mem _ hb, hkb⟩

/-- C6: attachment deduplication keyed on `(type, url)` is idempotent,
preserves the order of first appearance (its output is a sublist of its
input), keeps exactly the first occurrence of each key, and retains a
representative of every key of the input. -/
theorem dedupAttachments_spec (l : List Att) :
    dedupAttachments (dedupAttachments l) = dedupAttachments l ∧
    (dedupAttachments l).Sublist l ∧
    (∀ a ∈ dedupAttachments l,
      l.find? (fun b => decide (dedupKey b = dedupKey a)) = some a) ∧
    (∀ a ∈ l, ∃ b ∈ dedupAttachments l, dedupKey b = dedupKey a) := by
  refine ⟨?_, dedupAux_sublist l [], ?_, ?_⟩
  · exact dedupAux_eq_self (fun a _ => List.not_mem_nil _) (dedupAux_pairwise l [])
  · intro a ha
    exact dedupAux_find? ha
  · intro a ha
    rcases dedupAux_covers ha with hs | h
    · exact absurd hs (List.not_mem_nil _)
    · exact h

/-- An example attachment list with a duplicated key, used as the witness
input for the deduplication claim. -/
def dupAttList : List Att :=
  [Att.image ("u".toList) ("a".toList),
   Att.image ("u".toList) ("b".toList),
   Att.link ("u".toList) ("t".toList)]

/-- Witness for C6 at a concrete list: applying the theorem yields
idempotence on a list that actually contains duplicates. -/
theorem dedupAttachments_spec_witness :
    dedupAttachments (dedupAttachments dupAttList) = dedupAttachments dupAttList :=
  (dedupAttachments_spec dupAttList).1

theorem imgAttOf_isImage {nd : ANode} {a : Att} (h : imgAttOf nd = some a) :
    attIsImage a = true := by
  cases nd with
  | img src alt =>
    cases src with
    | none => cases h
    | some s =>
      have h2 : (if s = [] then none else some (Att.image s alt)) = some a := h
      by_cases hs : s = []
      · rw [if_pos hs] at h2
        cases h2
      · rw [if_neg hs, Option.some_inj] at h2
        rw [← h2]
        rfl
  | anchor href txt => cases h
  | other => cases h

theorem linkAttOf_isLink {nd : ANode} {a : Att} (h : linkAttOf nd = some a) :
    attIsLink a = true := by
  cases nd with
  | img src alt => cases h
  | anchor href txt =>
    cases href with
    | none => cases h
    | some s =>
      have hc : (if containsSub ("facebook.com".toList) s = true ∧
            ¬ containsSub ("groups".toList) s = true then none
          else if containsSub ("comment".toList) (pyLower s) = true then none
          else if s = [] then none
          else some (Att.link (normalize_url s) txt)) = some a := h
      by_cases h1 : containsSub ("facebook.com".toList) s = true ∧
          ¬ containsSub ("groups".toList) s = true
      · rw [if_pos h1] at hc
        cases hc
      · rw [if_neg h1] at hc
        by_cases h2 : containsSub ("comment".toList) (pyLower s) = true
        · rw [if_pos h2] at hc
          cases hc
        · rw [if_neg h2] at hc
          by_cases h3 : s = []
          · rw [if_pos h3] at hc
            cases hc
          · rw [if_neg h3, Option.some_inj] at hc
            rw [← hc]
            rfl
  | other => cases h

theorem attIsLink_eq_false_of_isImage {a : Att} (h : attIsImage a = true) :
    attIsLink a = false := by
  cases a with
  | image u alt => rfl
  | link u t => cases h

theorem attIsImage_eq_false_of_isLink {a : Att} (h : attIsLink a = true) :
    attIsImage a = false := by
  cases a with
  | image u alt => cases h
  | link u t => rfl

/-- C10: in the attachment sequence of any container, every image
attachment precedes every link attachment regardless of the interleaving
of images and anchors in the document (the sequence is its image part
followed by its link part), and within each type the document order of
the corresponding elements is preserved. -/
theorem extract_attachments_ordering (nodes : List ANode) :
    extract_attachments nodes =
      (extract_attachments nodes).filter attIsImage ++
      (extract_attachments nodes).filter attIsLink ∧
    ((extract_attachments nodes).filter attIsImage).Sublist (imageAtts nodes) ∧
    ((extract_attachments nodes).filter attIsLink).Sublist (linkAtts nodes) := by
  have hsub : (extract_attachments nodes).Sublist (imageAtts nodes ++ linkAtts nodes) :=
    dedupAux_sublist _ []
  rw [List.sublist_append_iff] at hsub
  obtain ⟨l1, l2, heq, h1, h2⟩ := hsub
  have hA : ∀ a ∈ l1, attIsImage a = true := by
    intro a ha
    rcases List.mem_filterMap.mp (h1.subset ha) with ⟨nd, _, hnd⟩
    exact imgAttOf_isImage hnd
  have hB : ∀ a ∈ l2, attIsLink a = true := by
    intro a ha
    rcases List.mem_filterMap.mp (h2.subset ha) with ⟨nd, _, hnd⟩
    exact linkAttOf_isLink hnd
  have hf1 : (extract_attachments nodes).filter attIsImage = l1 := by
    rw [heq, List.filter_append, List.filter_eq_self.mpr hA,
        List.filter_eq_nil_iff.mpr ?_, List.append_nil]
    intro a ha
    rw [attIsImage_eq_false_of_isLink (hB a ha)]
    exact Bool.false_ne_true
  have hf2 : (extract_attachments nodes).filter attIsLink = l2 := by
    rw [heq, List.filter_append, List.filter_eq_self.mpr hB,
        List.filter_eq_nil_iff.mpr ?_, List.nil_append]
    intro a ha
    rw [attIsLink_eq_false_of_isImage (hA a ha)]
    exact Bool.false_ne_true
  refine ⟨?_, ?_, ?_⟩
  · rw [hf1, hf2]
    exact heq
  · rw [hf1]
    exact h1
  · rw [hf2]
    exact h2

/-- A document fragment in which an anchor precedes an image, used as the
witness input for the attachment-ordering claim. -/
def mixedNodes : List ANode :=
  [ANode.anchor (some ("http://x.com/a".toList)) ("A".toList),
   ANode.img (some ("http://img/1".toList)) ("pic".toList)]

/-- Witness for C10 at a concrete document in which a link anchor appears
before an image: the extracted sequence still lists the image part first. -/
theorem extract_attachments_ordering_witness :
    extract_attachments mixedNodes =
      (extract_attachments mixedNodes).filter attIsImage ++
      (extract_attachments mixedNodes).filter attIsLink :=
  (extract_attachments_ordering mixedNodes).1

/-- C2: for every container list and any behaviour of the per-post
builder, `parse_posts_from_html` returns a plain list (no exception value
escapes): the posts of the containers whose extraction succeeds, in
document order, with each failing container skipped and the siblings
unaffected. -/
theorem parse_posts_from_html_skips_failures {Container Post Err : Type}
    (parseSingle : Container → Except Err Post) (containers : List Container) :
    parse_posts_from_html parseSingle containers =
      containers.filterMap (fun c => (parseSingle c).toOption) := by
  induction containers with
  | nil => rfl
  | cons c rest ih =>
    unfold parse_posts_from_html
    cases hc : parseSingle c with
    | ok p => simp [List.filterMap_cons, hc, Except.toOption, ih]
    | error e => simp [List.filterMap_cons, hc, Except.toOption, ih]

/-- Witness for C2 at a concrete run in which the second and fourth
containers fail: the posts of their siblings are still produced, in order. -/
theorem parse_posts_from_html_skips_failures_witness :
    parse_posts_from_html
      (fun n : Nat => if n % 2 = 0 then Except.ok n else Except.error "odd")
      [1, 2, 3, 4] = [2, 4] := by
  rw [parse_posts_from_html_skips_failures]
  decide

theorem firstTruthyTs_eq_ok_none {now : Int} {dateutil : Str → Option Int}
    {L : List (Option Str)}
    (h : ∀ o ∈ L, tsFromRaw now dateutil o = Except.ok none) :
    firstTruthyTs now dateutil L = Except.ok none := by
  induction L with
  | nil => rfl
  | cons o rest ih =>
    unfold firstTruthyTs
    rw [h o (List.mem_cons_self _ _)]
    exact ih (fun o ho => h o (List.mem_cons_of_mem _ ho))

theorem firstTruthyTs_ok_some_mem {now : Int} {dateutil : Str → Option Int} :
    ∀ {L : List (Option Str)} {t : Int},
    firstTruthyTs now dateutil L = Except.ok (some t) →
    ∃ o ∈ L, tsFromRaw now dateutil o = Except.ok (some t) := by
  intro L
  induction L with
  | nil => intro t h; cases h
  | cons o rest ih =>
    intro t h
    unfold firstTruthyTs at h
    cases hr : tsFromRaw now dateutil o with
    | error e =>
      rw [hr] at h
      cases h
    | ok o2 =>
      rw [hr] at h
      cases o2 with
      | some v =>
        replace h : (Except.ok (some v) : Except PyErr (Option Int)) =
            Except.ok (some t) := h
        injection h with h
        injection h with h
        exact ⟨o, List.mem_cons_self _ _, by rw [hr, h]⟩
      | none =>
        obtain ⟨o3, ho3, hts⟩ := ih h
        exact ⟨o3, List.mem_cons_of_mem _ ho3, hts⟩

theorem tsFromRaw_eq_ok_none {now : Int} {dateutil : Str → Option Int} {o : Option Str}
    (h : ∀ s : Str, o = some s → s ≠ [] →
      parse_facebook_datetime now dateutil (some s) = Except.ok none ∨
      parse_facebook_datetime now dateutil (some s) = Except.ok (some 0)) :
    tsFromRaw now dateutil o = Except.ok none := by
  cases o with
  | none => rfl
  | some s =>
    show (if s = [] then Except.ok none
          else match parse_facebook_datetime now dateutil (some s) with
               | Except.error e => Except.error e
               | Except.ok (some t) => Except.ok (if t = 0 then none else some t)
               | Except.ok none => Except.ok none) = Except.ok none
    by_cases hs : s = []
    · rw [if_pos hs]
    · rw [if_neg hs]
      rcases h s rfl hs with hp | hp
      · rw [hp]
      · rw [hp]
        decide

theorem tsFromRaw_ok_some_ne_zero {now : Int} {dateutil : Str → Option Int}
    {o : Option Str} {t : Int}
    (h : tsFromRaw now dateutil o = Except.ok (some t)) : t ≠ 0 := by
  cases o with
  | none => cases h
  | some s =>
    replace h : (if s = [] then Except.ok none
          else match parse_facebook_datetime now dateutil (some s) with
               | Except.error e => Except.error e
               | Except.ok (some t) => Except.ok (if t = 0 then none else some t)
               | Except.ok none => Except.ok none) = Except.ok (some t) := h
    by_cases hs : s = []
    · rw [if_pos hs] at h
      cases h
    · rw [if_neg hs] at h
      cases hp : parse_facebook_datetime now dateutil (some s) with
      | error e =>
        rw [hp] at h
        cases h
      | ok o2 =>
        rw [hp] at h
        cases o2 with
        | none =>
          replace h : (Except.ok (none : Option Int) : Except PyErr (Option Int)) =
              Except.ok (some t) := h
          injection h with h
          cases h
        | some v =>
          replace h : (Except.ok (if v = 0 then none else some v) :
              Except PyErr (Option Int)) = Except.ok (some t) := h
          by_cases hz : v = 0
          · rw [if_pos hz] at h
            injection h with h
            cases h
          · rw [if_neg hz] at h
            injection h with h
            injection h with h
            rw [← h]
            exact hz

theorem elTs_eq_ok_none {now : Int} {dateutil : Str → Option Int} {el : TsEl}
    (h : ∀ o ∈ tsCandidates el, tsFromRaw now dateutil o = Except.ok none) :
    elTs now dateutil el = Except.ok none := by
  unfold elTs
  exact firstTruthyTs_eq_ok_none h

theorem elTs_ok_some_ne_zero {now : Int} {dateutil : Str → Option Int} {el : TsEl}
    {t : Int} (h : elTs now dateutil el = Except.ok (some t)) : t ≠ 0 := by
  unfold elTs at h
  obtain ⟨o, _, ho⟩ := firstTruthyTs_ok_some_mem h
  exact tsFromRaw_ok_some_ne_zero ho

theorem firstElTs_ok_some_ne_zero {now : Int} {dateutil : Str → Option Int} :
    ∀ {els : List TsEl} {t : Int},
    firstElTs now dateutil els = Except.ok (some t) → t ≠ 0 := by
  intro els
  induction els with
  | nil => intro t h; cases h
  | cons el rest ih =>
    intro t h
    unfold firstElTs at h
    cases he : elTs now dateutil el with
    | error e =>
      rw [he] at h
      cases h
    | ok o =>
      rw [he] at h
      cases o with
      | some v =>
        replace h : (Except.ok (some v) : Except PyErr (Option Int)) =
            Except.ok (some t) := h
        injection h with h
        injection h with h
        rw [← h]
        exact elTs_ok_some_ne_zero he
      | none => exact ih h

theorem parse_facebook_datetime_nowLit (now : Int) (dateutil : Str → Option Int) :
    parse_facebook_datetime now dateutil (some nowLit) = Except.ok (some now) := rfl

theorem lastResortTs_eq_now (now : Int) (dateutil : Str → Option Int) :
    lastResortTs now dateutil = Except.ok now := by
  unfold lastResortTs
  rw [parse_facebook_datetime_nowLit]
  show Except.ok (if now = 0 then 0 else now) = Except.ok now
  by_cases h0 : now = 0
  · rw [if_pos h0, h0]
  · rw [if_neg h0]

theorem extract_created_at_ok_ne_zero {now : Int} {dateutil : Str → Option Int}
    (els : List TsEl) (text : Str) (hnow : now ≠ 0) :
    ∀ t : Int, extract_created_at now dateutil els text = Except.ok t → t ≠ 0 := by
  intro t h
  unfold extract_created_at at h
  cases hf : firstElTs now dateutil els with
  | error e =>
    rw [hf] at h
    cases h
  | ok o =>
    rw [hf] at h
    cases o with
    | some v =>
      replace h : (Except.ok v : Except PyErr Int) = Except.ok t := h
      injection h with h
      rw [← h]
      exact firstElTs_ok_some_ne_zero hf
    | none =>
      replace h : (match parse_facebook_datetime now dateutil (some text) with
          | Except.error e => Except.error e
          | Except.ok (some t) =>
            if t = 0 then lastResortTs now dateutil else Except.ok t
          | Except.ok none => lastResortTs now dateutil) = Except.ok t := h
      cases hp : parse_facebook_datetime now dateutil (some text) with
      | error e =>
        rw [hp] at h
        cases h
      | ok o2 =>
        rw [hp] at h
        cases o2 with
        | some v =>
          replace h : (if v = 0 then lastResortTs now dateutil else Except.ok v) =
              Except.ok t := h
          by_cases hz : v = 0
          · rw [if_pos hz, lastResortTs_eq_now] at h
            injection h with h
            rw [← h]
            exact hnow
          · rw [if_neg hz] at h
            injection h with h
            rw [← h]
            exact hz
        | none =>
          replace h : lastResortTs now dateutil = Except.ok t := h
          rw [lastResortTs_eq_now] at h
          injection h with h
          rw [← h]
          exact hnow

/-- C8: for a container in which no timestamp-bearing attribute resolves
through the Normalizer and the visible text does not parse either,
`_extract_created_at` raises nothing and returns exactly the value the
Normalizer produces for the literal `"now"` sentinel (the current epoch
time), so the field is never left unset. -/
theorem extract_created_at_now_fallback (now : Int) (dateutil : Str → Option Int)
    (els : List TsEl) (text : Str)
    (hattr : ∀ el ∈ els, ∀ o ∈ tsCandidates el, ∀ s : Str, o = some s →
      parse_facebook_datetime now dateutil (some s) = Except.ok none)
    (htext : parse_facebook_datetime now dateutil (some text) = Except.ok none) :
    extract_created_at now dateutil els text = Except.ok now ∧
    parse_facebook_datetime now dateutil (some nowLit) = Except.ok (some now) := by
  refine ⟨?_, parse_facebook_datetime_nowLit now dateutil⟩
  have hfe : firstElTs now dateutil els = Except.ok none := by
    induction els with
    | nil => rfl
    | cons el rest ih =>
      unfold firstElTs
      rw [elTs_eq_ok_none (fun o ho => tsFromRaw_eq_ok_none
        (fun s hs _ => Or.inl (hattr el (List.mem_cons_self _ _) o ho s hs)))]
      exact ih (fun e he o ho s hs => hattr e (List.mem_cons_of_mem _ he) o ho s hs)
  unfold extract_created_at
  rw [hfe]
  show (match parse_facebook_datetime now dateutil (some text) with
        | Except.error e => Except.error e
        | Except.ok (some t) =>
          if t = 0 then lastResortTs now dateutil else Except.ok t
        | Except.ok none => lastResortTs now dateutil) = Except.ok now
  rw [htext]
  exact lastResortTs_eq_now now dateutil

/-- Witness for C8: a container with one element carrying an unparseable
attribute and unparseable visible text resolves to the `now` value. -/
theorem extract_created_at_now_fallback_witness :
    extract_created_at 5 (fun _ => none)
      [TsEl.mk (some ("zz".toList)) none none none] ("hello".toList) =
      Except.ok 5 ∧
    parse_facebook_datetime 5 (fun _ => none) (some nowLit) = Except.ok (some 5) :=
  extract_created_at_now_fallback 5 (fun _ => none)
    [TsEl.mk (some ("zz".toList)) none none none] ("hello".toList)
    (by
      intro el hel o ho s hs
      rw [List.mem_singleton] at hel
      rw [hel] at ho
      unfold tsCandidates at ho
      rcases List.mem_cons.mp ho with h1 | h1
      · rw [h1] at hs
        have hs2 : some ("zz".toList) = some s := hs
        rw [Option.some_inj] at hs2
        rw [← hs2]
        decide
      · rcases List.mem_cons.mp h1 with h2 | h2
        · rw [h2] at hs
          cases hs
        · rcases List.mem_cons.mp h2 with h3 | h3
          · rw [h3] at hs
            cases hs
          · exact absurd h3 (List.not_mem_nil _))
    (by decide)

/-- The 10-digit relative-time attribute used in the C9 counterexample:
about 317 years of seconds, small enough that the subtraction stays
inside the supported datetime range (no exception is raised) while the
result is still far below epoch 0. -/
def negRelStr : Str := "9999999999s".toList

/-- C9 counterexample: with a positive current epoch time (1000) and a
container whose attribute reads `"9999999999s"`, `_extract_created_at`
raises nothing and returns the negative value `1000 - 9999999999`,
refuting the claim that the result is strictly positive whenever the
current epoch time is positive. -/
theorem extract_created_at_negative :
    (0 : Int) < 1000 ∧
    extract_created_at 1000 (fun _ => none)
      [TsEl.mk (some negRelStr) none none none] [] =
      Except.ok (-9999998999) ∧
    (-9999998999 : Int) < 0 := by
  decide

/-- C9 (amended): a timestamp attribute that the Normalizer resolves to
exactly epoch 0 is treated as unresolved — an element all of whose
truthy candidate attributes resolve to nothing or to epoch 0 falls
through to the later candidates and fallbacks — and, whenever the
current epoch time is positive, any value `_extract_created_at` returns
(it can instead raise on an extreme relative-time token) is nonzero,
though not necessarily positive. -/
theorem extract_created_at_zero_fallthrough (now : Int) (dateutil : Str → Option Int)
    (el : TsEl) (els : List TsEl) (text : Str)
    (h0 : 0 < now)
    (hel : ∀ o ∈ tsCandidates el, ∀ s : Str, o = some s → s ≠ [] →
      parse_facebook_datetime now dateutil (some s) = Except.ok none ∨
      parse_facebook_datetime now dateutil (some s) = Except.ok (some 0)) :
    extract_created_at now dateutil (el :: els) text =
      extract_created_at now dateutil els text ∧
    (∀ t : Int, extract_created_at now dateutil els text = Except.ok t → t ≠ 0) := by
  have hnow : now ≠ 0 := by omega
  refine ⟨?_, extract_created_at_ok_ne_zero els text hnow⟩
  have hfe : firstElTs now dateutil (el :: els) = firstElTs now dateutil els := by
    simp only [firstElTs]
    rw [elTs_eq_ok_none (fun o ho => tsFromRaw_eq_ok_none (hel o ho))]
  unfold extract_created_at
  rw [hfe]

/-- Witness for the amended C9 theorem: an element whose only candidate
attribute is unparseable falls through, and the empty container resolves
to the positive `now` value 7 (in particular nonzero). -/
theorem extract_created_at_zero_fallthrough_witness :
    extract_created_at 7 (fun _ => none)
      [TsEl.mk (some ("zz".toList)) none none none] [] =
      extract_created_at 7 (fun _ => none) [] [] ∧
    (∀ t : Int, extract_created_at 7 (fun _ => none) [] [] = Except.ok t → t ≠ 0) :=
  extract_created_at_zero_fallthrough 7 (fun _ => none)
    (TsEl.mk (some ("zz".toList)) none none none) [] []
    (by decide)
    (by
      intro o ho s hs hne
      unfold tsCandidates at ho
      rcases List.mem_cons.mp ho with h1 | h1
      · rw [h1] at hs
        have hs2 : some ("zz".toList) = some s := hs
        rw [Option.some_inj] at hs2
        rw [← hs2]
        left
        decide
      · rcases List.mem_cons.mp h1 with h2 | h2
        · rw [h2] at hs
          cases hs
        · rcases List.mem_cons.mp h2 with h3 | h3
          · rw [h3] at hs
            cases hs
          · exact absurd h3 (List.not_mem_nil _))

/-- Witness for C4: a 10-digit epoch string not exceeding 10,000,000,000
parses to its own integer value. -/
theorem parse_facebook_datetime_epoch_digits_witness :
    parse_facebook_datetime 0 (fun _ => none) (some ("1715352299".toList)) =
      Except.ok (some 1715352299) := by
  have h := (parse_facebook_datetime_epoch_digits 0 (fun _ => none)
    ("1715352299".toList) (by decide) (by decide) (by decide)).1 (by decide)
  rw [h]
  decide

/-- Witness for the amended C3 theorem: the string `"3 hours"` at wall
clock 20000 resolves, without raising, to `now` minus three hours. -/
theorem parse_facebook_datetime_relative_witness :
    parse_facebook_datetime 20000 (fun _ => none) (some ("3 hours".toList)) =
      Except.ok (some 9200) := by
  have h := parse_facebook_datetime_relative 20000 (fun _ => none)
    ("3 hours".toList) 3 ("h".toList) 3600 (by decide) (by decide) (by decide)
    (by decide) (by decide) (by decide)
  rw [h]
  decide
